import Mathlib

/-!
Shallow embedding of the rs-tiled map parser (src/lib.rs, src/cache.rs).

The XML pull parser, the base64 decoder and the zlib inflater are external
collaborators of the program (they come from the xml, serialize and flate2
crates).  The event stream is modelled as a list of events; reading past the
end of the list corresponds to the reader returning EndDocument.  The base64
and zlib pipeline of parse_data is modelled by an abstract Codec: applied to
the trimmed character payload it yields either a decoding failure (the
from_base64 error) or the sequence of little-endian u32 values successively
produced by read_le_u32 on the inflate reader, together with the terminal
outcome of that reader (end-of-file, or an io error).

Machine integers are modelled as Nat restricted to the u32 range where the
source uses u32, and Int where the source uses i32; the one place the source
casts u32 to i32 (get_tileset_by_gid) is modelled by an explicit wrapping
conversion.  f32 opacity values are modelled as Rat via a decimal parser (no
claim depends on float rounding).
-/

namespace Tiled

/-- Digit-string to number; none unless the string is one or more digits. -/
def parseDigits : List Char → Option Nat
  | [] => none
  | cs => cs.foldl (fun acc c =>
      match acc with
      | none => none
      | some n => if c.isDigit then some (n * 10 + (c.toNat - 48)) else none)
      (some 0)

/-- Model of u32 FromStr: digits only, value below 2^32. -/
def parseU32 (s : String) : Option Nat :=
  match parseDigits s.data with
  | some n => if n < 2 ^ 32 then some n else none
  | none => none

/-- Model of i32 FromStr: optional leading minus sign, then digits, in i32 range. -/
def parseI32 (s : String) : Option Int :=
  match s.data with
  | '-' :: rest =>
      match parseDigits rest with
      | some n => if (n : Int) ≤ 2 ^ 31 then some (-(n : Int)) else none
      | none => none
  | cs =>
      match parseDigits cs with
      | some n => if n < 2 ^ 31 then some (n : Int) else none
      | none => none

/-- Model of bool FromStr: exactly the strings true and false. -/
def parseBool (s : String) : Option Bool :=
  if s = "true" then some true
  else if s = "false" then some false
  else none

/-- Model of the decimal fragment of f32 FromStr (external std conversion);
an optional minus sign, digits, optionally a point and more digits.  Exact
rational value is kept; no claim depends on float rounding. -/
def parseF32 (s : String) : Option Rat :=
  let core : List Char → Option Rat := fun cs =>
    match cs.splitOn '.' with
    | [intPart] =>
        match parseDigits intPart with
        | some n => some (n : Rat)
        | none => none
    | [intPart, fracPart] =>
        match parseDigits intPart, parseDigits fracPart with
        | some n, some f => some ((n : Rat) + (f : Rat) / ((10 : Rat) ^ fracPart.length))
        | _, _ => none
    | _ => none
  match s.data with
  | '-' :: rest => (core rest).map (fun q => -q)
  | cs => core cs

/-- Hexadecimal digit value. -/
def hexVal (c : Char) : Option Nat :=
  if c.isDigit then some (c.toNat - 48)
  else if 'a' ≤ c ∧ c ≤ 'f' then some (c.toNat - 97 + 10)
  else if 'A' ≤ c ∧ c ≤ 'F' then some (c.toNat - 65 + 10)
  else none

/-- Model of from_str_radix(s, 16) on a two-character slice. -/
def parseHex2 (a b : Char) : Option Nat :=
  match hexVal a, hexVal b with
  | some x, some y => some (x * 16 + y)
  | _, _ => none

/-- Colour with three 8-bit channels (struct Colour in lib.rs). -/
structure Colour where
  red : Nat
  green : Nat
  blue : Nat
deriving DecidableEq, Repr

/-- FromStr for Colour: strip an optional leading hash, require exactly six
hex digits, parse three channel pairs. -/
def parseColour (s : String) : Option Colour :=
  let cs := match s.data with
    | '#' :: rest => rest
    | cs => cs
  match cs with
  | [a, b, c, d, e, f] =>
      match parseHex2 a b, parseHex2 c d, parseHex2 e f with
      | some r, some g, some bl => some ⟨r, g, bl⟩
      | _, _, _ => none
  | _ => none

/-- Orientation enumeration (enum Orientation in lib.rs). -/
inductive Orientation where
  | Orthogonal
  | Isometric
  | Staggered
deriving DecidableEq, Repr

/-- FromStr for Orientation; note the source matches the capitalised string
for the staggered case. -/
def orientationFromStr (s : String) : Option Orientation :=
  if s = "orthogonal" then some .Orthogonal
  else if s = "isometric" then some .Isometric
  else if s = "Staggered" then some .Staggered
  else none

/-- Error type (enum TiledError in lib.rs).  The payloads of the external
IoError and FromBase64Error are modelled as strings. -/
inductive TiledError where
  | MalformedAttributes (msg : String)
  | DecompressingError (msg : String)
  | DecodingError (msg : String)
  | PrematureEnd (msg : String)
  | Other (msg : String)
deriving DecidableEq, Repr

/-- XML pull events as consumed by the parser: only the local name and the
attribute list (local name, value) are used by the source. -/
inductive XmlEvent where
  | startElement (name : String) (attrs : List (String × String))
  | endElement (name : String)
  | characters (text : String)
  | other
deriving DecidableEq, Repr

/-- Remaining events of the pull reader; an exhausted list corresponds to the
reader producing EndDocument. -/
abbrev Stream := List XmlEvent

/-- Model of one field of the get_attrs macro: scan the attribute list once
and assign the converted value whenever the name matches (a later occurrence
overwrites an earlier one, as assignment does in the source). -/
def findAttr {α : Type} (attrs : List (String × String)) (name : String)
    (conv : String → Option α) : Option α :=
  attrs.foldl (fun acc a => if a.1 = name then conv a.2 else acc) none

/-- Property map (type Properties in lib.rs); the HashMap is modelled as an
association list with insert-replacing-existing-key semantics. -/
abbrev Properties := List (String × String)

/-- HashMap::insert model: replace the value when the key is present,
otherwise append the binding. -/
def propInsert (p : Properties) (k v : String) : Properties :=
  if p.any (fun a => a.1 = k) then
    p.map (fun a => if a.1 = k then (k, v) else a)
  else
    p ++ [(k, v)]

/-- Image entity (struct Image in lib.rs). -/
structure Image where
  source : String
  width : Int
  height : Int
  transparent_colour : Option Colour
deriving DecidableEq, Repr

/-- Tileset entity (struct Tileset in lib.rs). -/
structure Tileset where
  first_gid : Nat
  name : String
  tile_width : Nat
  tile_height : Nat
  spacing : Nat
  margin : Nat
  images : List Image
deriving DecidableEq, Repr

/-- Layer entity (struct Layer in lib.rs); opacity is the modelled f32. -/
structure Layer where
  name : String
  opacity : Rat
  visible : Bool
  tiles : List (List Nat)
  properties : Properties
deriving DecidableEq, Repr

/-- Object variants (enum Object in lib.rs). -/
inductive Object where
  | Rect (x y : Int) (width height : Nat) (visible : Bool)
  | Ellipse (x y : Int) (width height : Nat) (visible : Bool)
  | Polyline (x y : Int) (points : List (Int × Int)) (visible : Bool)
  | Polygon (x y : Int) (points : List (Int × Int)) (visible : Bool)
deriving DecidableEq, Repr

/-- ObjectGroup entity (struct ObjectGroup in lib.rs). -/
structure ObjectGroup where
  name : String
  opacity : Rat
  visible : Bool
  objects : List Object
  colour : Option Colour
deriving DecidableEq, Repr

/-- Map entity (struct Map in lib.rs). -/
structure Map where
  version : String
  orientation : Orientation
  width : Nat
  height : Nat
  tile_width : Nat
  tile_height : Nat
  tilesets : List Tileset
  layers : List Layer
  object_groups : List ObjectGroup
  properties : Properties
  background_colour : Option Colour
deriving DecidableEq, Repr

/-- Terminal outcome of the inflate reader after its successful u32 reads:
either the distinguished end-of-file condition or another io error. -/
inductive ZlibEnd where
  | eof
  | ioErr (msg : String)
deriving DecidableEq, Repr

/-- External base64 + zlib collaborator of parse_data.  Applied to the
trimmed character payload it returns the from_base64 failure message, or the
u32 values read little-endian from the inflate reader together with the
reader's terminal outcome. -/
structure Codec where
  decode : String → Except String (List Nat × ZlibEnd)

/-- Handler type used by the parse_tag macro model: a handler receives the
child element's attribute list, the current accumulated state, the fuel
available for its own nested event consumption, and the remaining stream,
and returns the updated state and remaining stream. -/
abbrev Handler (σ : Type) :=
  List (String × String) → σ → Nat → Stream → Except TiledError (σ × Stream)

/-- Model of the parse_tag macro: pull events until the close tag.  A start
element with a registered handler runs it (errors propagate); one without a
handler is skipped; an end element matching the close tag terminates; any
other event is skipped; an exhausted stream is the reader's EndDocument and
yields PrematureEnd.  Fuel only bounds the recursion depth of the embedding;
with enough fuel it never runs out before the stream does, and exhausted
fuel is reported with the same PrematureEnd error. -/
def parseTag {σ : Type} (close : String) (handler : String → Option (Handler σ)) :
    Nat → σ → Stream → Except TiledError (σ × Stream)
  | 0, _, _ => .error (.PrematureEnd "Document ended before we expected.")
  | fuel + 1, st, s =>
    match s with
    | [] => .error (.PrematureEnd "Document ended before we expected.")
    | e :: rest =>
      match e with
      | .startElement n attrs =>
        match handler n with
        | some h =>
          match h attrs st fuel rest with
          | .error er => .error er
          | .ok (st', s') => parseTag close handler fuel st' s'
        | none => parseTag close handler fuel st rest
      | .endElement n =>
        if n = close then .ok (st, rest) else parseTag close handler fuel st rest
      | .characters _ => parseTag close handler fuel st rest
      | .other => parseTag close handler fuel st rest

/-- Handler table of parse_properties: a property child inserts its required
name and value attributes into the accumulated map. -/
def propertiesHandler : String → Option (Handler Properties)
  | "property" => some (fun attrs st _ s =>
      match findAttr attrs "name" (fun v => some v),
            findAttr attrs "value" (fun v => some v) with
      | some k, some v => .ok (propInsert st k v, s)
      | _, _ => .error (.MalformedAttributes "property must have a name and a value"))
  | _ => none

/-- Model of parse_properties in lib.rs. -/
def parseProperties (fuel : Nat) (s : Stream) : Except TiledError (Properties × Stream) :=
  parseTag "properties" propertiesHandler fuel [] s

/-- Model of Image::new: extract trans (optional colour) and required source,
width, height, then consume children until the image close tag (the single
registered handler is for the empty tag name, which no real element has). -/
def imageNew (fuel : Nat) (attrs : List (String × String)) (s : Stream) :
    Except TiledError (Image × Stream) :=
  let c := findAttr attrs "trans" parseColour
  match findAttr attrs "source" (fun v => some v),
        findAttr attrs "width" parseI32,
        findAttr attrs "height" parseI32 with
  | some src, some w, some h =>
      match parseTag "image" (fun n => if n = "" then some (fun _ st _ s => .ok (st, s)) else none)
          fuel () s with
      | .error e => .error e
      | .ok (_, s') => .ok (⟨src, w, h, c⟩, s')
  | _, _, _ =>
      .error (.MalformedAttributes "image must have a source, width and height with correct types")

/-- Handler table of Tileset::new: an image child is built by Image::new and
appended to the image list. -/
def tilesetHandler : String → Option (Handler (List Image)) :=
  fun n =>
    if n = "image" then
      some (fun attrs st fuel s =>
        match imageNew fuel attrs s with
        | .error e => .error e
        | .ok (img, s') => .ok (st ++ [img], s'))
    else none

/-- Model of Tileset::new: extract optional spacing and margin and required
firstgid, name, tilewidth, tileheight, then drive the children. -/
def tilesetNew (fuel : Nat) (attrs : List (String × String)) (s : Stream) :
    Except TiledError (Tileset × Stream) :=
  let sp := findAttr attrs "spacing" parseU32
  let mg := findAttr attrs "margin" parseU32
  match findAttr attrs "firstgid" parseU32,
        findAttr attrs "name" (fun v => some v),
        findAttr attrs "tilewidth" parseU32,
        findAttr attrs "tileheight" parseU32 with
  | some g, some n, some w, some h =>
      match parseTag "tileset" tilesetHandler fuel [] s with
      | .error e => .error e
      | .ok (imgs, s') =>
          .ok (⟨g, n, w, h, sp.getD 0, mg.getD 0, imgs⟩, s')
  | _, _, _, _ =>
      .error (.MalformedAttributes
        "tileset must have a firstgid, name tile width and height with correct types")

/-- Model of the read-and-reshape loop inside parse_data: each u32 read is
pushed onto the current row; when the row reaches the declared width it is
moved into the grid; the reader's end-of-file returns the grid (discarding a
partial row); any other reader error aborts with DecompressingError. -/
def dataLoop (width : Nat) : List Nat → ZlibEnd → List Nat → List (List Nat) →
    Except TiledError (List (List Nat))
  | [], .eof, _, data => .ok data
  | [], .ioErr m, _, _ => .error (.DecompressingError m)
  | v :: vs, t, row, data =>
      let row' := row ++ [v]
      if row'.length = width then dataLoop width vs t [] (data ++ [row'])
      else dataLoop width vs t row' data

/-- Whitespace predicate of the modelled str::trim (ASCII whitespace; the
payloads involved are base64 text). -/
def isWhiteChar (c : Char) : Bool :=
  c = ' ' ∨ c = '\t' ∨ c = '\n' ∨ c = '\r'

/-- Model of str::trim: drop whitespace from both ends. -/
def trimStr (s : String) : String :=
  String.mk (((s.data.dropWhile isWhiteChar).reverse.dropWhile isWhiteChar).reverse)

/-- Event loop of parse_data after the format check: characters are trimmed,
decoded and reshaped (the function returns without consuming further
events); an end element named data returns the empty grid; other events are
skipped.  The source loops forever when the reader is exhausted inside an
unclosed data element (its catch-all arm also matches EndDocument), so the
exhausted-stream case of the model is unreachable on streams a real reader
produces before its EndDocument; it is mapped to PrematureEnd. -/
def parseDataLoop (codec : Codec) (width : Nat) : Stream →
    Except TiledError (List (List Nat) × Stream)
  | [] => .error (.PrematureEnd "reader exhausted inside a data element")
  | e :: rest =>
    match e with
    | .characters s =>
        match codec.decode (trimStr s) with
        | .error m => .error (.DecodingError m)
        | .ok (vs, t) =>
            match dataLoop width vs t [] [] with
            | .error e => .error e
            | .ok grid => .ok (grid, rest)
    | .endElement n =>
        if n = "data" then .ok ([], rest) else parseDataLoop codec width rest
    | _ => parseDataLoop codec width rest

/-- Model of parse_data: require encoding and compression attributes, accept
only base64 with zlib, then run the event loop. -/
def parseData (codec : Codec) (attrs : List (String × String)) (width : Nat)
    (s : Stream) : Except TiledError (List (List Nat) × Stream) :=
  match findAttr attrs "encoding" (fun v => some v),
        findAttr attrs "compression" (fun v => some v) with
  | some e, some c =>
      if e = "base64" ∧ c = "zlib" then parseDataLoop codec width s
      else .error (.Other "Only base64 and zlib allowed for the moment")
  | _, _ => .error (.MalformedAttributes "data must have an encoding and a compression")

/-- State accumulated by the Layer::new loop: the tile grid and properties. -/
structure LayerSt where
  tiles : List (List Nat)
  properties : Properties
deriving DecidableEq, Repr

/-- Handler table of Layer::new: a data child replaces the grid via
parse_data, a properties child replaces the property map. -/
def layerHandler (codec : Codec) (width : Nat) : String → Option (Handler LayerSt) :=
  fun n =>
    if n = "data" then
      some (fun attrs st _ s =>
        match parseData codec attrs width s with
        | .error e => .error e
        | .ok (grid, s') => .ok ({ st with tiles := grid }, s'))
    else if n = "properties" then
      some (fun _ st fuel s =>
        match parseProperties fuel s with
        | .error e => .error e
        | .ok (p, s') => .ok ({ st with properties := p }, s'))
    else none

/-- Model of Layer::new: optional opacity and visible (visible is the parsed
i32 compared with 1), required name, then drive the children. -/
def layerNew (codec : Codec) (fuel : Nat) (attrs : List (String × String))
    (width : Nat) (s : Stream) : Except TiledError (Layer × Stream) :=
  let o := findAttr attrs "opacity" parseF32
  let v := findAttr attrs "visible" (fun t => (parseI32 t).map (fun x => x == 1))
  match findAttr attrs "name" (fun t => some t) with
  | some n =>
      match parseTag "layer" (layerHandler codec width) fuel ⟨[], []⟩ s with
      | .error e => .error e
      | .ok (st, s') =>
          .ok (⟨n, o.getD 1, v.getD true, st.tiles, st.properties⟩, s')
  | none => .error (.MalformedAttributes "layer must have a name")

/-- Split a character list at the first comma, when one is present. -/
def splitnOnceChars : List Char → List Char × Option (List Char)
  | [] => ([], none)
  | c :: cs =>
      if c = ',' then ([], some cs)
      else
        let r := splitnOnceChars cs
        (c :: r.1, r.2)

/-- Model of str::splitn(1, comma) of the source's era: at most one split,
so at most two pieces, the second keeping any further commas. -/
def splitnOnce (p : String) : List String :=
  match splitnOnceChars p.data with
  | (a, none) => [String.mk a]
  | (a, some b) => [String.mk a, String.mk b]

/-- Loop of Object::parse_points over the space-separated pieces: each piece
must split at its first comma into exactly two integer coordinates. -/
def parsePointsLoop : List String → List (Int × Int) →
    Except TiledError (List (Int × Int))
  | [], acc => .ok acc
  | p :: ps, acc =>
      match splitnOnce p with
      | [a, b] =>
          match parseI32 a, parseI32 b with
          | some x, some y => parsePointsLoop ps (acc ++ [(x, y)])
          | _, _ => .error (.MalformedAttributes
              "one of polyline's points does not have i32eger coordinates")
      | _ => .error (.MalformedAttributes
          "one of a polyline's points does not have an x and y coordinate")

/-- Split a character list on a separator character, like str::split: the
piece count is one more than the separator count, and empty pieces are
kept. -/
def splitChar (sep : Char) : List Char → List (List Char)
  | [] => [[]]
  | c :: cs =>
      if c = sep then [] :: splitChar sep cs
      else
        match splitChar sep cs with
        | [] => [[c]]
        | r :: rs => (c :: r) :: rs

/-- Model of Object::parse_points: split the attribute text on spaces and
run the pair loop. -/
def parsePoints (s : String) : Except TiledError (List (Int × Int)) :=
  parsePointsLoop ((splitChar ' ' s.data).map String.mk) []

/-- Model of Object::new_polyline: require a points attribute and parse it. -/
def newPolyline (x y : Int) (v : Bool) (attrs : List (String × String)) :
    Except TiledError Object :=
  match findAttr attrs "points" (fun t => some t) with
  | some s =>
      match parsePoints s with
      | .error e => .error e
      | .ok pts => .ok (.Polyline x y pts v)
  | none => .error (.MalformedAttributes "A polyline must have points")

/-- Model of Object::new_polygon: require a points attribute and parse it. -/
def newPolygon (x y : Int) (v : Bool) (attrs : List (String × String)) :
    Except TiledError Object :=
  match findAttr attrs "points" (fun t => some t) with
  | some s =>
      match parsePoints s with
      | .error e => .error e
      | .ok pts => .ok (.Polygon x y pts v)
  | none => .error (.MalformedAttributes "A polygon must have points")

/-- Handler table of Object::new, closing over the extracted x, y, optional
width and height, and visibility; each shape child stores its variant in the
option state. -/
def objectHandler (x y : Int) (w h : Option Nat) (v : Bool) :
    String → Option (Handler (Option Object)) :=
  fun n =>
    if n = "ellipse" then
      some (fun _ _ _ s =>
        match w, h with
        | some w, some h => .ok (some (.Ellipse x y w h v), s)
        | _, _ => .error (.MalformedAttributes "An ellipse must have a width and height"))
    else if n = "polyline" then
      some (fun attrs _ _ s =>
        match newPolyline x y v attrs with
        | .error e => .error e
        | .ok o => .ok (some o, s))
    else if n = "polygon" then
      some (fun attrs _ _ s =>
        match newPolygon x y v attrs with
        | .error e => .error e
        | .ok o => .ok (some o, s))
    else none

/-- Model of Object::new: required x and y, optional width, height and
visible (here the target type is bool, so the attribute goes through bool
FromStr), drive the shape children, then fall back to Rect when no shape
child committed a variant. -/
def objectNew (fuel : Nat) (attrs : List (String × String)) (s : Stream) :
    Except TiledError (Object × Stream) :=
  let w := findAttr attrs "width" parseU32
  let h := findAttr attrs "height" parseU32
  let vOpt := findAttr attrs "visible" parseBool
  match findAttr attrs "x" parseI32, findAttr attrs "y" parseI32 with
  | some x, some y =>
      let v := vOpt.getD true
      match parseTag "object" (objectHandler x y w h v) fuel none s with
      | .error e => .error e
      | .ok (obj, s') =>
          match obj with
          | some o => .ok (o, s')
          | none =>
              match w, h with
              | some w, some h => .ok (.Rect x y w h v, s')
              | _, _ => .error (.MalformedAttributes "A rect must have a width and a height")
  | _, _ => .error (.MalformedAttributes "objects must have an x and a y number")

/-- Handler table of ObjectGroup::new: an object child is built by
Object::new and appended. -/
def objectGroupHandler : String → Option (Handler (List Object)) :=
  fun n =>
    if n = "object" then
      some (fun attrs st fuel s =>
        match objectNew fuel attrs s with
        | .error e => .error e
        | .ok (o, s') => .ok (st ++ [o], s'))
    else none

/-- Model of ObjectGroup::new: optional opacity, visible (parsed i32
compared with 1) and color, required name, then drive the children. -/
def objectGroupNew (fuel : Nat) (attrs : List (String × String)) (s : Stream) :
    Except TiledError (ObjectGroup × Stream) :=
  let o := findAttr attrs "opacity" parseF32
  let v := findAttr attrs "visible" (fun t => (parseI32 t).map (fun x => x == 1))
  let c := findAttr attrs "color" parseColour
  match findAttr attrs "name" (fun t => some t) with
  | some n =>
      match parseTag "objectgroup" objectGroupHandler fuel [] s with
      | .error e => .error e
      | .ok (objs, s') => .ok (⟨n, o.getD 1, v.getD true, objs, c⟩, s')
  | none => .error (.MalformedAttributes "object groups must have a name")

/-- State accumulated by the Map::new loop: the four mutable locals of the
source. -/
structure MapSt where
  tilesets : List Tileset
  layers : List Layer
  properties : Properties
  object_groups : List ObjectGroup
deriving DecidableEq, Repr

/-- Handler table of Map::new: tileset and layer and objectgroup children
are built and appended; a properties child replaces the property map.  The
layer handler passes the map's declared width through. -/
def mapHandler (codec : Codec) (w : Nat) : String → Option (Handler MapSt) :=
  fun n =>
    if n = "tileset" then
      some (fun attrs st fuel s =>
        match tilesetNew fuel attrs s with
        | .error e => .error e
        | .ok (t, s') => .ok ({ st with tilesets := st.tilesets ++ [t] }, s'))
    else if n = "layer" then
      some (fun attrs st fuel s =>
        match layerNew codec fuel attrs w s with
        | .error e => .error e
        | .ok (l, s') => .ok ({ st with layers := st.layers ++ [l] }, s'))
    else if n = "properties" then
      some (fun _ st fuel s =>
        match parseProperties fuel s with
        | .error e => .error e
        | .ok (p, s') => .ok ({ st with properties := p }, s'))
    else if n = "objectgroup" then
      some (fun attrs st fuel s =>
        match objectGroupNew fuel attrs s with
        | .error e => .error e
        | .ok (g, s') => .ok ({ st with object_groups := st.object_groups ++ [g] }, s'))
    else none

/-- Model of Map::new: optional backgroundcolor, required version,
orientation, width, height, tilewidth, tileheight, then drive the children
and assemble the Map. -/
def mapNew (codec : Codec) (fuel : Nat) (attrs : List (String × String))
    (s : Stream) : Except TiledError (Map × Stream) :=
  let c := findAttr attrs "backgroundcolor" parseColour
  match findAttr attrs "version" (fun t => some t),
        findAttr attrs "orientation" orientationFromStr,
        findAttr attrs "width" parseU32,
        findAttr attrs "height" parseU32,
        findAttr attrs "tilewidth" parseU32,
        findAttr attrs "tileheight" parseU32 with
  | some v, some o, some w, some h, some tw, some th =>
      match parseTag "map" (mapHandler codec w) fuel ⟨[], [], [], []⟩ s with
      | .error e => .error e
      | .ok (st, s') =>
          .ok (⟨v, o, w, h, tw, th, st.tilesets, st.layers, st.object_groups,
                st.properties, c⟩, s')
  | _, _, _, _, _, _ =>
      .error (.MalformedAttributes
        "map must have a version, width and height with correct types")

/-- Model of the top-level parse function: scan events for the root map
start element and delegate to Map::new; an exhausted stream is the reader's
EndDocument and fails with PrematureEnd. -/
def parse (codec : Codec) (fuel : Nat) : Stream → Except TiledError Map
  | [] => .error (.PrematureEnd "Document ended before map was parsed")
  | e :: rest =>
    match e with
    | .startElement n attrs =>
        if n = "map" then
          match mapNew codec fuel attrs rest with
          | .error er => .error er
          | .ok (m, _) => .ok m
        else parse codec fuel rest
    | _ => parse codec fuel rest

/-- Model of the u32-to-i32 cast as the source performs it in
get_tileset_by_gid. -/
def toI32 (n : Nat) : Int :=
  if n < 2 ^ 31 then (n : Int) else (n : Int) - 2 ^ 32

/-- Loop body of Map::get_tileset_by_gid: track the greatest first_gid seen
(as an i32, initialised to minus one) among tilesets whose first_gid is
strictly below the queried gid. -/
def gtbgStep (gid : Nat) (acc : Int × Option Tileset) (ts : Tileset) :
    Int × Option Tileset :=
  if toI32 ts.first_gid > acc.1 ∧ ts.first_gid < gid then (toI32 ts.first_gid, some ts)
  else acc

/-- Model of Map::get_tileset_by_gid. -/
def Map.get_tileset_by_gid (m : Map) (gid : Nat) : Option Tileset :=
  (m.tilesets.foldl (gtbgStep gid) (-1, none)).2

/-- Loop invariant of get_tileset_by_gid over the scanned prefix of the
tileset list: with no candidate yet the tracked maximum is still minus one
and no scanned tileset lies below the queried gid; with a candidate, it is
a scanned tileset below the gid whose cast first_gid is the tracked
maximum, maximal among scanned tilesets below the gid. -/
def GtbgInv (gid : Nat) (seen : List Tileset) (acc : Int × Option Tileset) : Prop :=
  (acc.2 = none → acc.1 = -1 ∧ ∀ t ∈ seen, ¬ t.first_gid < gid) ∧
  (∀ ts, acc.2 = some ts → ts ∈ seen ∧ ts.first_gid < gid ∧
    acc.1 = toI32 ts.first_gid ∧
    ∀ t ∈ seen, t.first_gid < gid → t.first_gid ≤ ts.first_gid)

/-- Filesystem resource cache (struct FilesystemResourceCache in cache.rs):
the HashMap from paths to shared tilesets is modelled as an association
list; Arc sharing is ownership bookkeeping with no observable effect on
values. -/
structure FilesystemResourceCache where
  tilesets : List (String × Tileset)
deriving DecidableEq, Repr

/-- Model of FilesystemResourceCache::new. -/
def FilesystemResourceCache.new : FilesystemResourceCache := ⟨[]⟩

/-- Model of ResourceCache::get_tileset: lookup without side effects. -/
def FilesystemResourceCache.get_tileset (c : FilesystemResourceCache)
    (path : String) : Option Tileset :=
  c.tilesets.lookup path

/-- Model of ResourceCache::get_or_try_insert_tileset_with.  The FnOnce
factory is a thunk; the result carries the returned Result, the state of
the mutably borrowed cache after the call, and a count of factory
invocations (instrumenting the at-most-one construction guarantee).  On a
hit the cached value is returned and the map untouched; on a miss the
factory runs, an Ok result is inserted and returned, an Err leaves the map
unchanged. -/
def FilesystemResourceCache.get_or_try_insert_tileset_with {ε : Type}
    (c : FilesystemResourceCache) (path : String) (f : Unit → Except ε Tileset) :
    Except ε Tileset × FilesystemResourceCache × Nat :=
  match c.tilesets.lookup path with
  | some t => (.ok t, c, 0)
  | none =>
      match f () with
      | .ok t => (.ok t, ⟨c.tilesets ++ [(path, t)]⟩, 1)
      | .error e => (.error e, c, 1)

/-! Concrete inputs used by counterexamples and witnesses.  The codecs are
instances of the external base64 + zlib collaborator: the real pipeline can
produce any byte sequence, hence any u32 list, so each table below is
realisable by an actual compressed payload. -/

/-- Codec decoding the payload SIX to six u32 values followed by a clean
end-of-file. -/
def sixCodec : Codec :=
  ⟨fun s => if s = "SIX" then .ok ([1, 2, 3, 4, 5, 6], .eof) else .error "bad base64"⟩

/-- Document declaring a two-by-two map whose single layer's data payload
decompresses to six integers: three full rows of width two. -/
def sixDoc : Stream :=
  [.startElement "map"
      [("version", "1.0"), ("orientation", "orthogonal"), ("width", "2"),
        ("height", "2"), ("tilewidth", "16"), ("tileheight", "16")],
   .startElement "layer" [("name", "l1")],
   .startElement "data" [("encoding", "base64"), ("compression", "zlib")],
   .characters "SIX",
   .endElement "data",
   .endElement "layer",
   .endElement "map"]

/-- Map value produced by parsing sixDoc. -/
def sixMap : Map :=
  ⟨"1.0", .Orthogonal, 2, 2, 16, 16, [],
   [⟨"l1", 1, true, [[1, 2], [3, 4], [5, 6]], []⟩], [], [], none⟩

/-- Document declaring a map with zero width and zero height. -/
def zeroDoc : Stream :=
  [.startElement "map"
      [("version", "1.0"), ("orientation", "orthogonal"), ("width", "0"),
        ("height", "0"), ("tilewidth", "16"), ("tileheight", "16")],
   .endElement "map"]

/-- Map value produced by parsing zeroDoc. -/
def zeroMap : Map :=
  ⟨"1.0", .Orthogonal, 0, 0, 16, 16, [], [], [], [], none⟩

/-- First tileset of the two-tileset example of the specification. -/
def gidTs1 : Tileset := ⟨1, "a", 16, 16, 0, 0, []⟩

/-- Second tileset of the two-tileset example of the specification. -/
def gidTs50 : Tileset := ⟨50, "b", 16, 16, 0, 0, []⟩

/-- Map with two tilesets whose first gids are one and fifty. -/
def gidMap : Map :=
  ⟨"1.0", .Orthogonal, 2, 2, 16, 16, [gidTs1, gidTs50], [], [], [], none⟩

/-- Tileset whose first gid does not fit in an i32. -/
def bigTs : Tileset := ⟨2 ^ 31, "big", 16, 16, 0, 0, []⟩

/-- Map holding only the tileset with the out-of-i32-range first gid. -/
def bigMap : Map :=
  ⟨"1.0", .Orthogonal, 2, 2, 16, 16, [bigTs], [], [], [], none⟩

/-! Helper lemmas. -/

theorem foldl_attr_skip {α : Type} (name : String) (conv : String → Option α) :
    ∀ (attrs : List (String × String)) (acc : Option α),
      (∀ p ∈ attrs, p.1 ≠ name) →
      attrs.foldl (fun acc a => if a.1 = name then conv a.2 else acc) acc = acc := by
  intro attrs
  induction attrs with
  | nil => intro acc _; rfl
  | cons a l ih =>
      intro acc h
      have ha : a.1 ≠ name := h a (List.mem_cons_self a l)
      simp only [List.foldl_cons, if_neg ha]
      exact ih acc (fun p hp => h p (List.mem_cons_of_mem a hp))

theorem findAttr_absent {α : Type} (attrs : List (String × String)) (name : String)
    (conv : String → Option α) (h : ∀ p ∈ attrs, p.1 ≠ name) :
    findAttr attrs name conv = none :=
  foldl_attr_skip name conv attrs none h

theorem lookup_append_right {β : Type} (l : List (String × β)) (p : String) (t : β)
    (h : l.lookup p = none) : (l ++ [(p, t)]).lookup p = some t := by
  induction l with
  | nil => simp [List.lookup]
  | cons a l ih =>
      obtain ⟨k, v⟩ := a
      cases hpk : (p == k)
      · have h' : l.lookup p = none := by simpa [List.lookup, hpk] using h
        simpa [List.lookup, hpk] using ih h'
      · exfalso
        simp [List.lookup, hpk] at h

theorem parsePointsLoop_err :
    ∀ (l : List String) (acc : List (Int × Int)) (e : TiledError),
      parsePointsLoop l acc = .error e → ∃ m, e = .MalformedAttributes m := by
  intro l
  induction l with
  | nil => intro acc e h; simp [parsePointsLoop] at h
  | cons p ps ih =>
      intro acc e h
      rw [parsePointsLoop] at h
      split at h
      · split at h
        · exact ih _ e h
        · exact ⟨_, (Except.error.inj h).symm⟩
      · exact ⟨_, (Except.error.inj h).symm⟩

theorem dataLoop_row_len (w : Nat) :
    ∀ (vs : List Nat) (t : ZlibEnd) (row : List Nat) (data grid : List (List Nat)),
      (∀ r ∈ data, r.length = w) →
      dataLoop w vs t row data = .ok grid →
      ∀ r ∈ grid, r.length = w := by
  intro vs
  induction vs with
  | nil =>
      intro t row data grid hdata h
      cases t with
      | eof => exact (Except.ok.inj h) ▸ hdata
      | ioErr m => simp [dataLoop] at h
  | cons v vs ih =>
      intro t row data grid hdata h
      rw [dataLoop] at h
      by_cases hw : (row ++ [v]).length = w
      · rw [if_pos hw] at h
        refine ih t [] (data ++ [row ++ [v]]) grid ?_ h
        intro r hr
        rcases List.mem_append.mp hr with hr | hr
        · exact hdata r hr
        · rw [List.mem_singleton.mp hr]
          exact hw
      · rw [if_neg hw] at h
        exact ih t (row ++ [v]) data grid hdata h

theorem dataLoop_count (w : Nat) (hw : 0 < w) :
    ∀ (vs row : List Nat) (data : List (List Nat)),
      row.length < w →
      ∃ grid, dataLoop w vs .eof row data = .ok grid ∧
        grid.length = data.length + (row.length + vs.length) / w := by
  intro vs
  induction vs with
  | nil =>
      intro row data hrow
      refine ⟨data, rfl, ?_⟩
      rw [List.length_nil, Nat.add_zero, Nat.div_eq_of_lt hrow, Nat.add_zero]
  | cons v vs ih =>
      intro row data hrow
      rw [dataLoop]
      by_cases hc : (row ++ [v]).length = w
      · rw [if_pos hc]
        obtain ⟨grid, hg, hlen⟩ := ih [] (data ++ [row ++ [v]]) hw
        refine ⟨grid, hg, ?_⟩
        simp only [List.length_nil, List.length_append, List.length_singleton,
          List.length_cons, Nat.zero_add] at hlen hc ⊢
        have h1 : row.length + (vs.length + 1) = vs.length + w := by omega
        rw [h1, Nat.add_div_right vs.length hw]
        omega
      · rw [if_neg hc]
        have hlt : (row ++ [v]).length < w := by
          simp only [List.length_append, List.length_singleton] at hc ⊢
          omega
        obtain ⟨grid, hg, hlen⟩ := ih (row ++ [v]) data hlt
        refine ⟨grid, hg, ?_⟩
        simp only [List.length_append, List.length_singleton, List.length_cons] at hlen ⊢
        have h1 : row.length + (vs.length + 1) = row.length + 1 + vs.length := by omega
        rw [h1]
        exact hlen

theorem parseDataLoop_rows (codec : Codec) (w : Nat) :
    ∀ (s : Stream) (grid : List (List Nat)) (s' : Stream),
      parseDataLoop codec w s = .ok (grid, s') → ∀ r ∈ grid, r.length = w := by
  intro s
  induction s with
  | nil => intro grid s' h; simp [parseDataLoop] at h
  | cons e rest ih =>
      intro grid s' h
      cases e with
      | characters txt =>
          rw [parseDataLoop] at h
          split at h
          · simp at h
          · rename_i vs t hd
            split at h
            · simp at h
            · rename_i g hg
              have h' := Except.ok.inj h
              have h1 : g = grid := congrArg Prod.fst h'
              exact h1 ▸ dataLoop_row_len w vs t [] [] g (by simp) hg
      | endElement n =>
          rw [parseDataLoop] at h
          by_cases hn : n = "data"
          · rw [if_pos hn] at h
            have h' := Except.ok.inj h
            have h1 : ([] : List (List Nat)) = grid := congrArg Prod.fst h'
            rw [← h1]
            intro r hr
            cases hr
          · rw [if_neg hn] at h
            exact ih grid s' h
      | startElement n attrs =>
          simp only [parseDataLoop] at h
          exact ih grid s' h
      | other =>
          simp only [parseDataLoop] at h
          exact ih grid s' h

theorem parseData_rows (codec : Codec) (attrs : List (String × String)) (w : Nat)
    (s : Stream) (grid : List (List Nat)) (s' : Stream)
    (h : parseData codec attrs w s = .ok (grid, s')) : ∀ r ∈ grid, r.length = w := by
  unfold parseData at h
  split at h
  · split at h
    · exact parseDataLoop_rows codec w s grid s' h
    · simp at h
  · simp at h

theorem parseTag_inv {σ : Type} (close : String)
    (handler : String → Option (Handler σ)) (P : σ → Prop)
    (hh : ∀ n hf, handler n = some hf → ∀ attrs st fuel s st' s', P st →
        hf attrs st fuel s = .ok (st', s') → P st') :
    ∀ (fuel : Nat) (st : σ) (s : Stream) (st' : σ) (s' : Stream),
      P st → parseTag close handler fuel st s = .ok (st', s') → P st' := by
  intro fuel
  induction fuel with
  | zero => intro st s st' s' hp h; simp [parseTag] at h
  | succ fuel ih =>
      intro st s st' s' hp h
      cases s with
      | nil => simp [parseTag] at h
      | cons e rest =>
          cases e with
          | startElement n attrs =>
              rw [parseTag] at h
              split at h
              · rename_i hf hn
                split at h
                · simp at h
                · rename_i st1 s1 hr
                  exact ih st1 s1 st' s'
                    (hh n hf hn attrs st fuel rest st1 s1 hp hr) h
              · rename_i hn
                exact ih st rest st' s' hp h
          | endElement n =>
              rw [parseTag] at h
              by_cases hcl : n = close
              · rw [if_pos hcl] at h
                have h1 : st = st' := congrArg Prod.fst (Except.ok.inj h)
                exact h1 ▸ hp
              · rw [if_neg hcl] at h
                exact ih st rest st' s' hp h
          | characters txt =>
              rw [parseTag] at h
              exact ih st rest st' s' hp h
          | other =>
              rw [parseTag] at h
              exact ih st rest st' s' hp h

theorem layerHandler_inv (codec : Codec) (w : Nat) :
    ∀ n hf, layerHandler codec w n = some hf →
      ∀ attrs st fuel s st' s', (∀ r ∈ st.tiles, r.length = w) →
        hf attrs st fuel s = .ok (st', s') → ∀ r ∈ st'.tiles, r.length = w := by
  intro n hf hn attrs st fuel s st' s' hp hr
  unfold layerHandler at hn
  by_cases hd : n = "data"
  · rw [if_pos hd] at hn
    have hf' := Option.some.inj hn
    subst hf'
    dsimp only at hr
    split at hr
    · simp at hr
    · rename_i grid s2 hpd
      have h1 : { st with tiles := grid } = st' := congrArg Prod.fst (Except.ok.inj hr)
      intro r hrr
      rw [← h1] at hrr
      exact parseData_rows codec attrs w s grid s2 hpd r hrr
  · rw [if_neg hd] at hn
    by_cases hp2 : n = "properties"
    · rw [if_pos hp2] at hn
      have hf' := Option.some.inj hn
      subst hf'
      dsimp only at hr
      split at hr
      · simp at hr
      · rename_i p s2 hpp
        have h1 : { st with properties := p } = st' := congrArg Prod.fst (Except.ok.inj hr)
        intro r hrr
        rw [← h1] at hrr
        exact hp r hrr
    · rw [if_neg hp2] at hn
      simp at hn

theorem layerNew_rows (codec : Codec) (fuel : Nat) (attrs : List (String × String))
    (w : Nat) (s : Stream) (l : Layer) (s' : Stream)
    (h : layerNew codec fuel attrs w s = .ok (l, s')) :
    ∀ r ∈ l.tiles, r.length = w := by
  simp only [layerNew] at h
  split at h
  · split at h
    · simp at h
    · rename_i st s1 htag
      rename_i n hname
      have h1 := congrArg Prod.fst (Except.ok.inj h)
      have h2 : st.tiles = l.tiles := congrArg Layer.tiles h1
      have h3 := parseTag_inv "layer" (layerHandler codec w)
        (fun st0 => ∀ r ∈ st0.tiles, r.length = w)
        (layerHandler_inv codec w) fuel ⟨[], []⟩ s st s1 (by intro r hr; cases hr) htag
      intro r hr
      exact h3 r (h2 ▸ hr)
  · simp at h

theorem mapHandler_inv (codec : Codec) (w : Nat) :
    ∀ n hf, mapHandler codec w n = some hf →
      ∀ attrs st fuel s st' s',
        (∀ l ∈ st.layers, ∀ r ∈ l.tiles, r.length = w) →
        hf attrs st fuel s = .ok (st', s') →
        ∀ l ∈ st'.layers, ∀ r ∈ l.tiles, r.length = w := by
  intro n hf hn attrs st fuel s st' s' hp hr
  unfold mapHandler at hn
  by_cases h1 : n = "tileset"
  · rw [if_pos h1] at hn
    have hf' := Option.some.inj hn
    subst hf'
    dsimp only at hr
    split at hr
    · simp at hr
    · rename_i t s2 ht
      have he : { st with tilesets := st.tilesets ++ [t] } = st' :=
        congrArg Prod.fst (Except.ok.inj hr)
      intro l hl
      rw [← he] at hl
      exact hp l hl
  · rw [if_neg h1] at hn
    by_cases h2 : n = "layer"
    · rw [if_pos h2] at hn
      have hf' := Option.some.inj hn
      subst hf'
      dsimp only at hr
      split at hr
      · simp at hr
      · rename_i lyr s2 hl2
        have he : { st with layers := st.layers ++ [lyr] } = st' :=
          congrArg Prod.fst (Except.ok.inj hr)
        intro l hl
        rw [← he] at hl
        rcases List.mem_append.mp hl with hl | hl
        · exact hp l hl
        · rw [List.mem_singleton.mp hl]
          exact layerNew_rows codec fuel attrs w s lyr s2 hl2
    · rw [if_neg h2] at hn
      by_cases h3 : n = "properties"
      · rw [if_pos h3] at hn
        have hf' := Option.some.inj hn
        subst hf'
        dsimp only at hr
        split at hr
        · simp at hr
        · rename_i p s2 hpp
          have he : { st with properties := p } = st' :=
            congrArg Prod.fst (Except.ok.inj hr)
          intro l hl
          rw [← he] at hl
          exact hp l hl
      · rw [if_neg h3] at hn
        by_cases h4 : n = "objectgroup"
        · rw [if_pos h4] at hn
          have hf' := Option.some.inj hn
          subst hf'
          dsimp only at hr
          split at hr
          · simp at hr
          · rename_i g s2 hg
            have he : { st with object_groups := st.object_groups ++ [g] } = st' :=
              congrArg Prod.fst (Except.ok.inj hr)
            intro l hl
            rw [← he] at hl
            exact hp l hl
        · rw [if_neg h4] at hn
          simp at hn

theorem mapNew_rows (codec : Codec) (fuel : Nat) (attrs : List (String × String))
    (s : Stream) (m : Map) (s' : Stream)
    (h : mapNew codec fuel attrs s = .ok (m, s')) :
    ∀ l ∈ m.layers, ∀ r ∈ l.tiles, r.length = m.width := by
  simp only [mapNew] at h
  split at h
  · rename_i v o w hgt tw th hv ho hw1 hh1 htw hth
    split at h
    · simp at h
    · rename_i st s1 htag
      have h1 := congrArg Prod.fst (Except.ok.inj h)
      have hw : m.width = w := (congrArg Map.width h1).symm
      have hlay : st.layers = m.layers := congrArg Map.layers h1
      have h3 := parseTag_inv "map" (mapHandler codec w)
        (fun st0 => ∀ l ∈ st0.layers, ∀ r ∈ l.tiles, r.length = w)
        (mapHandler_inv codec w) fuel ⟨[], [], [], []⟩ s st s1
        (by intro l hl; cases hl) htag
      intro l hl r hr
      rw [hw]
      exact h3 l (hlay ▸ hl) r hr
  · simp at h

theorem parse_rows (codec : Codec) (fuel : Nat) :
    ∀ (doc : Stream) (m : Map), parse codec fuel doc = .ok m →
      ∀ l ∈ m.layers, ∀ r ∈ l.tiles, r.length = m.width := by
  intro doc
  induction doc with
  | nil => intro m h; simp [parse] at h
  | cons e rest ih =>
      intro m h
      cases e with
      | startElement n attrs =>
          rw [parse] at h
          by_cases hn : n = "map"
          · rw [if_pos hn] at h
            split at h
            · simp at h
            · rename_i m1 s1 hm
              have h1 : m1 = m := Except.ok.inj h
              exact h1 ▸ mapNew_rows codec fuel attrs rest m1 s1 hm
          · rw [if_neg hn] at h
            exact ih m h
      | endElement n =>
          simp only [parse] at h
          exact ih m h
      | characters txt =>
          simp only [parse] at h
          exact ih m h
      | other =>
          simp only [parse] at h
          exact ih m h

theorem toI32_of_lt {n : Nat} (h : n < 2 ^ 31) : toI32 n = (n : Int) := if_pos h

theorem toI32_nonneg_of_lt {n : Nat} (h : n < 2 ^ 31) : (0 : Int) ≤ toI32 n := by
  rw [toI32_of_lt h]
  exact Int.ofNat_nonneg n

theorem gtbg_step_inv (gid : Nat) (seen : List Tileset) (acc : Int × Option Tileset)
    (ts : Tileset) (hts : ts.first_gid < 2 ^ 31)
    (hseen : ∀ t ∈ seen, t.first_gid < 2 ^ 31)
    (hinv : GtbgInv gid seen acc) :
    GtbgInv gid (seen ++ [ts]) (gtbgStep gid acc ts) := by
  obtain ⟨hn, hs⟩ := hinv
  unfold gtbgStep
  by_cases hcond : toI32 ts.first_gid > acc.1 ∧ ts.first_gid < gid
  · rw [if_pos hcond]
    constructor
    · intro h
      exact Option.noConfusion h
    · intro ts' hts'
      have heq' : ts = ts' := Option.some.inj hts'
      subst heq'
      refine ⟨List.mem_append_right seen (List.mem_singleton_self ts), hcond.2, rfl, ?_⟩
      intro t htmem htlt
      rcases List.mem_append.mp htmem with hmem | hmem
      · cases hacc : acc.2 with
        | none => exact absurd htlt ((hn hacc).2 t hmem)
        | some cur =>
            obtain ⟨hcm, hclt, hceq, hcmax⟩ := hs cur hacc
            have h1 : t.first_gid ≤ cur.first_gid := hcmax t hmem htlt
            have h2 : toI32 ts.first_gid > toI32 cur.first_gid := hceq ▸ hcond.1
            have h3 : cur.first_gid < ts.first_gid := by
              rw [toI32_of_lt hts, toI32_of_lt (hseen cur hcm)] at h2
              exact_mod_cast h2
            omega
      · have h5 := List.mem_singleton.mp hmem
        subst h5
        exact le_rfl
  · rw [if_neg hcond]
    constructor
    · intro hacc
      obtain ⟨h1, h2⟩ := hn hacc
      refine ⟨h1, ?_⟩
      intro t htmem
      rcases List.mem_append.mp htmem with hmem | hmem
      · exact h2 t hmem
      · have h5 := List.mem_singleton.mp hmem
        subst h5
        intro hlt
        apply hcond
        refine ⟨?_, hlt⟩
        rw [h1]
        have := toI32_nonneg_of_lt hts
        omega
    · intro ts' hacc
      obtain ⟨hm, hlt, heq, hmax⟩ := hs ts' hacc
      refine ⟨List.mem_append_left _ hm, hlt, heq, ?_⟩
      intro t htmem htlt
      rcases List.mem_append.mp htmem with hmem | hmem
      · exact hmax t hmem htlt
      · have h5 := List.mem_singleton.mp hmem
        subst h5
        by_contra hgt
        push_neg at hgt
        apply hcond
        refine ⟨?_, htlt⟩
        rw [heq, toI32_of_lt hts, toI32_of_lt (hseen ts' hm)]
        exact_mod_cast hgt

theorem gtbg_fold_inv (gid : Nat) :
    ∀ (l seen : List Tileset) (acc : Int × Option Tileset),
      (∀ t ∈ seen ++ l, t.first_gid < 2 ^ 31) →
      GtbgInv gid seen acc →
      GtbgInv gid (seen ++ l) (l.foldl (gtbgStep gid) acc) := by
  intro l
  induction l with
  | nil => intro seen acc h31 hinv; simpa using hinv
  | cons ts l ih =>
      intro seen acc h31 hinv
      have hts : ts.first_gid < 2 ^ 31 := h31 ts (by simp)
      have hseen : ∀ t ∈ seen, t.first_gid < 2 ^ 31 :=
        fun t ht => h31 t (List.mem_append_left _ ht)
      have hstep := gtbg_step_inv gid seen acc ts hts hseen hinv
      have h31' : ∀ t ∈ (seen ++ [ts]) ++ l, t.first_gid < 2 ^ 31 := by
        intro t ht
        apply h31
        simpa [List.append_assoc] using ht
      have hrec := ih (seen ++ [ts]) (gtbgStep gid acc ts) h31' hstep
      simpa [List.append_assoc] using hrec

/-! Claim theorems. -/

/-- C6: in the element descent driver, a child start element with no
registered handler is silently skipped (the loop continues on the rest of
the stream with unchanged state); an end element matching the open
element's name terminates the loop normally, returning the accumulated
state and remaining events; and reaching end of document (an exhausted
event stream) before that end element fails with PrematureEnd. -/
theorem c6_descent_driver :
    (∀ (σ : Type) (close : String) (h : String → Option (Handler σ)) (fuel : Nat)
        (st : σ) (n : String) (attrs : List (String × String)) (rest : Stream),
        h n = none →
        parseTag close h (fuel + 1) st (.startElement n attrs :: rest) =
          parseTag close h fuel st rest) ∧
    (∀ (σ : Type) (close : String) (h : String → Option (Handler σ)) (fuel : Nat)
        (st : σ) (rest : Stream),
        parseTag close h (fuel + 1) st (.endElement close :: rest) = .ok (st, rest)) ∧
    (∀ (σ : Type) (close : String) (h : String → Option (Handler σ)) (fuel : Nat)
        (st : σ),
        parseTag close h fuel st [] =
          .error (.PrematureEnd "Document ended before we expected.")) := by
  refine ⟨?_, ?_, ?_⟩
  · intro σ close h fuel st n attrs rest hn
    simp [parseTag, hn]
  · intro σ close h fuel st rest
    simp [parseTag]
  · intro σ close h fuel st
    cases fuel <;> simp [parseTag]

/-- Witness for C6 at concrete inputs: a skipped unknown child, a normal
close, and a premature end, on a driver with no registered handlers over a
Nat state. -/
theorem c6_descent_driver_witness :
    (parseTag "map" (fun _ => none) 4 (0 : Nat)
        [.startElement "tile" [], .endElement "map"] =
      parseTag "map" (fun _ => none) 3 (0 : Nat) [.endElement "map"]) ∧
    (parseTag "map" (fun _ => none) 4 (0 : Nat) [.endElement "map"] =
      .ok (0, [])) ∧
    (parseTag "map" (fun _ => none) 4 (0 : Nat) [] =
      .error (.PrematureEnd "Document ended before we expected.")) :=
  ⟨c6_descent_driver.1 Nat "map" (fun _ => none) 3 0 "tile" [] [.endElement "map"] rfl,
   c6_descent_driver.2.1 Nat "map" (fun _ => none) 3 0 [],
   c6_descent_driver.2.2 Nat "map" (fun _ => none) 4 0⟩

/-- C4: a data element carrying an encoding and compression pair other than
base64 with zlib fails with the unsupported-format Other error — in
particular never with DecompressingError or DecodingError, since the format
check precedes the decode pipeline (which is not even reached: the result
is the same for every codec and every following event stream). -/
theorem c4_unsupported_format (codec : Codec) (attrs : List (String × String))
    (width : Nat) (s : Stream) (e c : String)
    (he : findAttr attrs "encoding" (fun v => some v) = some e)
    (hc : findAttr attrs "compression" (fun v => some v) = some c)
    (hne : ¬(e = "base64" ∧ c = "zlib")) :
    parseData codec attrs width s =
      .error (.Other "Only base64 and zlib allowed for the moment") := by
  unfold parseData
  rw [he, hc]
  simp [hne]

/-- Witness for C4: base64 with gzip fails with the Other error, for a codec
that would happily decode anything. -/
theorem c4_unsupported_format_witness :
    parseData ⟨fun _ => .ok ([], .eof)⟩
        [("encoding", "base64"), ("compression", "gzip")] 4
        [.characters "AAAA", .endElement "data"] =
      .error (.Other "Only base64 and zlib allowed for the moment") :=
  c4_unsupported_format ⟨fun _ => .ok ([], .eof)⟩
    [("encoding", "base64"), ("compression", "gzip")] 4
    [.characters "AAAA", .endElement "data"] "base64" "gzip" rfl rfl (by decide)

/-- C9: a polygon child's points attribute is parsed by splitting on spaces
into comma-separated pairs, each required to parse as exactly two integers;
the concrete attribute 0,0 10,0 10,10 yields the Polygon variant with the
three pairs in document order; every failure of the points loop is a
MalformedAttributes error, as is a polygon child with no points attribute. -/
theorem c9_polygon_points :
    (∀ (x y : Int) (v : Bool),
        newPolygon x y v [("points", "0,0 10,0 10,10")] =
          .ok (.Polygon x y [(0, 0), (10, 0), (10, 10)] v)) ∧
    (∀ (s : String) (e : TiledError),
        parsePoints s = .error e → ∃ m, e = .MalformedAttributes m) ∧
    (∀ (x y : Int) (v : Bool) (attrs : List (String × String)),
        (∀ p ∈ attrs, p.1 ≠ "points") →
        newPolygon x y v attrs =
          .error (.MalformedAttributes "A polygon must have points")) := by
  refine ⟨?_, ?_, ?_⟩
  · intro x y v
    rfl
  · intro s e h
    exact parsePointsLoop_err _ _ e h
  · intro x y v attrs h
    unfold newPolygon
    rw [findAttr_absent attrs "points" (fun t => some t) h]

/-- Witness for C9 at concrete inputs: the documented three-point polygon, a
piece with no comma failing as MalformedAttributes, and a polygon element
lacking the points attribute. -/
theorem c9_polygon_points_witness :
    (newPolygon 7 8 true [("points", "0,0 10,0 10,10")] =
      .ok (.Polygon 7 8 [(0, 0), (10, 0), (10, 10)] true)) ∧
    (∃ m, TiledError.MalformedAttributes
        "one of a polyline's points does not have an x and y coordinate" =
          .MalformedAttributes m) ∧
    (newPolygon 7 8 true [("x", "1")] =
      .error (.MalformedAttributes "A polygon must have points")) :=
  ⟨c9_polygon_points.1 7 8 true,
   c9_polygon_points.2.1 "0,0 10"
     (.MalformedAttributes "one of a polyline's points does not have an x and y coordinate") rfl,
   c9_polygon_points.2.2 7 8 true [("x", "1")] (by decide)⟩

/-- C3: on success the tile-data decoder returns rows of exactly the
declared width; a decompressed integer count that is not a multiple of the
width still succeeds, with the trailing partial row silently dropped (the
row count is the flooring quotient); and a data element with no character
payload terminates on its matching end element with an empty grid. -/
theorem c3_decoder_shape (codec : Codec) (w : Nat) :
    (∀ (attrs : List (String × String)) (s : Stream) (grid : List (List Nat))
        (s' : Stream),
        parseData codec attrs w s = .ok (grid, s') → ∀ r ∈ grid, r.length = w) ∧
    (∀ vs : List Nat, 0 < w →
        ∃ grid, dataLoop w vs .eof [] [] = .ok grid ∧
          grid.length = vs.length / w) ∧
    (∀ (attrs : List (String × String)) (rest : Stream),
        findAttr attrs "encoding" (fun v => some v) = some "base64" →
        findAttr attrs "compression" (fun v => some v) = some "zlib" →
        parseData codec attrs w (.endElement "data" :: rest) = .ok ([], rest)) := by
  refine ⟨fun attrs s grid s' h => parseData_rows codec attrs w s grid s' h, ?_, ?_⟩
  · intro vs hw
    obtain ⟨grid, hg, hlen⟩ := dataLoop_count w hw vs [] [] hw
    exact ⟨grid, hg, by simpa using hlen⟩
  · intro attrs rest he hc
    unfold parseData
    rw [he, hc]
    simp [parseDataLoop]

/-- Witness for C3 at concrete inputs: five integers at width two give two
full rows (the fifth is dropped), and an empty payload gives the empty
grid. -/
theorem c3_decoder_shape_witness :
    (∀ r ∈ [[1, 2], [3, 4]], List.length r = 2) ∧
    (∃ grid, dataLoop 2 [1, 2, 3, 4, 5] .eof [] [] = .ok grid ∧
      grid.length = [1, 2, 3, 4, 5].length / 2) ∧
    (parseData ⟨fun _ => .error "unused"⟩
        [("encoding", "base64"), ("compression", "zlib")] 2
        [.endElement "data"] = .ok ([], [])) :=
  ⟨(c3_decoder_shape ⟨fun _ => .ok ([1, 2, 3, 4], .eof)⟩ 2).1
      [("encoding", "base64"), ("compression", "zlib")]
      [.characters "x"] [[1, 2], [3, 4]] [] rfl,
   (c3_decoder_shape ⟨fun _ => .error "unused"⟩ 2).2.1 [1, 2, 3, 4, 5] (by decide),
   (c3_decoder_shape ⟨fun _ => .error "unused"⟩ 2).2.2
      [("encoding", "base64"), ("compression", "zlib")] [] rfl rfl⟩

/-- C7: a tileset element whose attribute list carries no firstgid attribute
makes Tileset::new fail with the MalformedAttributes error before any child
is consumed, and the Map::new child loop propagates that error immediately:
the loop aborts from any intermediate state (in particular whatever tileset
list had been accumulated is discarded with the failed parse, and no
partially built Tileset is ever appended). -/
theorem c7_missing_required (attrs : List (String × String))
    (h : ∀ p ∈ attrs, p.1 ≠ "firstgid") :
    (∀ (fuel : Nat) (s : Stream),
        tilesetNew fuel attrs s = .error (.MalformedAttributes
          "tileset must have a firstgid, name tile width and height with correct types")) ∧
    (∀ (codec : Codec) (w fuel : Nat) (st : MapSt) (rest : Stream),
        parseTag "map" (mapHandler codec w) (fuel + 1) st
            (.startElement "tileset" attrs :: rest) =
          .error (.MalformedAttributes
            "tileset must have a firstgid, name tile width and height with correct types")) := by
  have h1 : ∀ (fuel : Nat) (s : Stream),
      tilesetNew fuel attrs s = .error (.MalformedAttributes
        "tileset must have a firstgid, name tile width and height with correct types") := by
    intro fuel s
    unfold tilesetNew
    rw [findAttr_absent attrs "firstgid" parseU32 h]
  refine ⟨h1, ?_⟩
  intro codec w fuel st rest
  simp [parseTag, mapHandler, h1 fuel rest]

/-- Witness for C7: a tileset element with only a name attribute fails with
MalformedAttributes, and aborts the map loop from a nonempty intermediate
state. -/
theorem c7_missing_required_witness :
    (tilesetNew 9 [("name", "t")] [.endElement "tileset"] =
      .error (.MalformedAttributes
        "tileset must have a firstgid, name tile width and height with correct types")) ∧
    (parseTag "map" (mapHandler ⟨fun _ => .error "b64"⟩ 4) 10
        ⟨[⟨1, "old", 8, 8, 0, 0, []⟩], [], [], []⟩
        [.startElement "tileset" [("name", "t")], .endElement "map"] =
      .error (.MalformedAttributes
        "tileset must have a firstgid, name tile width and height with correct types")) :=
  ⟨(c7_missing_required [("name", "t")] (by decide)).1 9 [.endElement "tileset"],
   (c7_missing_required [("name", "t")] (by decide)).2 ⟨fun _ => .error "b64"⟩ 4 9
     ⟨[⟨1, "old", 8, 8, 0, 0, []⟩], [], [], []⟩ [.endElement "map"]⟩

/-- C8: the cache returns a cached tileset without invoking the factory; on
a missing key it invokes the factory exactly once, inserting and returning
an Ok result, and propagating an Err while leaving the mapping unchanged;
and once a call has returned Ok, a further call for the same path performs
zero factory invocations and returns the same tileset with the cache
untouched, so at most one successful construction ever happens per key. -/
theorem c8_cache_once (ε ε2 : Type) (c : FilesystemResourceCache) (path : String)
    (f : Unit → Except ε Tileset) :
    (∀ t, c.get_tileset path = some t →
        c.get_or_try_insert_tileset_with path f = (.ok t, c, 0)) ∧
    (∀ t, c.get_tileset path = none → f () = .ok t →
        c.get_or_try_insert_tileset_with path f =
          (.ok t, ⟨c.tilesets ++ [(path, t)]⟩, 1)) ∧
    (∀ e, c.get_tileset path = none → f () = .error e →
        c.get_or_try_insert_tileset_with path f = (.error e, c, 1)) ∧
    (∀ (t : Tileset) (c' : FilesystemResourceCache) (k : Nat)
        (g : Unit → Except ε2 Tileset),
        c.get_or_try_insert_tileset_with path f = (.ok t, c', k) →
        c'.get_or_try_insert_tileset_with path g = (.ok t, c', 0)) := by
  refine ⟨?_, ?_, ?_, ?_⟩
  · intro t ht
    unfold FilesystemResourceCache.get_or_try_insert_tileset_with
    rw [show c.tilesets.lookup path = some t from ht]
  · intro t hn hf
    unfold FilesystemResourceCache.get_or_try_insert_tileset_with
    rw [show c.tilesets.lookup path = none from hn, hf]
  · intro e hn hf
    unfold FilesystemResourceCache.get_or_try_insert_tileset_with
    rw [show c.tilesets.lookup path = none from hn, hf]
  · intro t c' k g hc
    unfold FilesystemResourceCache.get_or_try_insert_tileset_with at hc ⊢
    cases hl : c.tilesets.lookup path with
    | some t0 =>
        rw [hl] at hc
        simp only [Prod.mk.injEq, Except.ok.injEq] at hc
        obtain ⟨h1, h2, _⟩ := hc
        subst h1
        subst h2
        rw [hl]
    | none =>
        rw [hl] at hc
        cases hf : f () with
        | ok t1 =>
            rw [hf] at hc
            simp only [Prod.mk.injEq, Except.ok.injEq] at hc
            obtain ⟨h1, h2, _⟩ := hc
            subst h1
            subst h2
            simp only [lookup_append_right c.tilesets path t1 hl]
        | error e =>
            rw [hf] at hc
            simp at hc

/-- Witness for C8 at concrete inputs: a hit returns the cached tileset with
no factory call; a miss constructs and inserts once; a failing factory
propagates its error and leaves the cache unchanged; and after a successful
insertion a second call with a factory that would fail performs zero
invocations and returns the cached tileset. -/
theorem c8_cache_once_witness :
    (FilesystemResourceCache.get_or_try_insert_tileset_with
        ⟨[("a", ⟨1, "w", 8, 8, 0, 0, []⟩)]⟩ "a"
        (fun _ => (.error "boom" : Except String Tileset)) =
      (.ok ⟨1, "w", 8, 8, 0, 0, []⟩, ⟨[("a", ⟨1, "w", 8, 8, 0, 0, []⟩)]⟩, 0)) ∧
    (FilesystemResourceCache.get_or_try_insert_tileset_with ⟨[]⟩ "a"
        (fun _ => (.ok ⟨1, "w", 8, 8, 0, 0, []⟩ : Except String Tileset)) =
      (.ok ⟨1, "w", 8, 8, 0, 0, []⟩, ⟨[("a", ⟨1, "w", 8, 8, 0, 0, []⟩)]⟩, 1)) ∧
    (FilesystemResourceCache.get_or_try_insert_tileset_with ⟨[]⟩ "a"
        (fun _ => (.error "boom" : Except String Tileset)) =
      (.error "boom", ⟨[]⟩, 1)) ∧
    (FilesystemResourceCache.get_or_try_insert_tileset_with
        ⟨[("a", ⟨1, "w", 8, 8, 0, 0, []⟩)]⟩ "a"
        (fun _ => (.error "late" : Except String Tileset)) =
      (.ok ⟨1, "w", 8, 8, 0, 0, []⟩, ⟨[("a", ⟨1, "w", 8, 8, 0, 0, []⟩)]⟩, 0)) :=
  ⟨(c8_cache_once String String ⟨[("a", ⟨1, "w", 8, 8, 0, 0, []⟩)]⟩ "a"
      (fun _ => (.error "boom" : Except String Tileset))).1 _ rfl,
   (c8_cache_once String String ⟨[]⟩ "a"
      (fun _ => (.ok ⟨1, "w", 8, 8, 0, 0, []⟩ : Except String Tileset))).2.1 _ rfl rfl,
   (c8_cache_once String String ⟨[]⟩ "a"
      (fun _ => (.error "boom" : Except String Tileset))).2.2.1 _ rfl rfl,
   (c8_cache_once String String ⟨[]⟩ "a"
      (fun _ => (.ok ⟨1, "w", 8, 8, 0, 0, []⟩ : Except String Tileset))).2.2.2
     ⟨1, "w", 8, 8, 0, 0, []⟩ ⟨[("a", ⟨1, "w", 8, 8, 0, 0, []⟩)]⟩ 1
     (fun _ => (.error "late" : Except String Tileset)) rfl⟩

/-- C10: the parsed visibility flag of a layer or object group element with
a name attribute is false exactly when its visible attribute text parses as
an i32 different from one; text that fails i32 parsing (such as the words
true and false) yields the same default visibility true as an absent
attribute. -/
theorem c10_visible_flag (codec : Codec) (fuel : Nat) (nm t : String) (w : Nat)
    (rest : Stream) :
    (∃ l, layerNew codec (fuel + 1) [("name", nm), ("visible", t)] w
          (.endElement "layer" :: rest) = .ok (l, rest) ∧
        (l.visible = false ↔ ∃ x, parseI32 t = some x ∧ x ≠ 1) ∧
        (parseI32 t = none → l.visible = true)) ∧
    (∃ l, layerNew codec (fuel + 1) [("name", nm)] w
          (.endElement "layer" :: rest) = .ok (l, rest) ∧ l.visible = true) ∧
    (∃ g, objectGroupNew (fuel + 1) [("name", nm), ("visible", t)]
          (.endElement "objectgroup" :: rest) = .ok (g, rest) ∧
        (g.visible = false ↔ ∃ x, parseI32 t = some x ∧ x ≠ 1) ∧
        (parseI32 t = none → g.visible = true)) ∧
    (parseI32 "true" = none ∧ parseI32 "false" = none ∧
      parseI32 "0" = some 0 ∧ parseI32 "2" = some 2) := by
  have hvis : ∀ v : Option Bool, v = (parseI32 t).map (fun x => x == 1) →
      ((v.getD true = false ↔ ∃ x, parseI32 t = some x ∧ x ≠ 1) ∧
        (parseI32 t = none → v.getD true = true)) := by
    intro v hv
    cases hx : parseI32 t with
    | none => subst hv; simp [hx]
    | some x =>
        subst hv
        constructor
        · simp [hx]
        · intro hcon
          exact absurd hcon (by simp [hx])
  refine ⟨⟨⟨nm, 1, ((parseI32 t).map (fun x => x == 1)).getD true, [], []⟩, rfl, ?_, ?_⟩,
          ⟨⟨nm, 1, true, [], []⟩, rfl, rfl⟩,
          ⟨⟨nm, 1, ((parseI32 t).map (fun x => x == 1)).getD true, [], none⟩, rfl, ?_, ?_⟩,
          by decide, by decide, by decide, by decide⟩
  · exact (hvis _ rfl).1
  · exact (hvis _ rfl).2
  · exact (hvis _ rfl).1
  · exact (hvis _ rfl).2

/-- Witness for C10 at concrete visible texts: the integer zero disables
visibility, the integer two also does (two differs from one), the word true
does not parse as an integer and leaves the default visibility. -/
theorem c10_visible_flag_witness :
    (∃ l, layerNew ⟨fun _ => .error "b64"⟩ 9 [("name", "a"), ("visible", "0")] 4
          (.endElement "layer" :: []) = .ok (l, []) ∧
        (l.visible = false ↔ ∃ x, parseI32 "0" = some x ∧ x ≠ 1) ∧
        (parseI32 "0" = none → l.visible = true)) ∧
    (∃ g, objectGroupNew 9 [("name", "a"), ("visible", "true")]
          (.endElement "objectgroup" :: []) = .ok (g, []) ∧
        (g.visible = false ↔ ∃ x, parseI32 "true" = some x ∧ x ≠ 1) ∧
        (parseI32 "true" = none → g.visible = true)) :=
  ⟨(c10_visible_flag ⟨fun _ => .error "b64"⟩ 8 "a" "0" 4 []).1,
   (c10_visible_flag ⟨fun _ => .error "b64"⟩ 8 "a" "true" 4 []).2.2.1⟩

/-- C1 (amended): every Layer in a Map accepted by parse has a tile grid
whose rows are each exactly the map's declared width long; the number of
rows, however, is whatever the decoded payload yields (the flooring
quotient of the integer count by the width) and is never checked against
the declared height. -/
theorem c1_layer_row_width (codec : Codec) (fuel : Nat) (doc : Stream) (m : Map)
    (h : parse codec fuel doc = .ok m) :
    ∀ l ∈ m.layers, ∀ r ∈ l.tiles, r.length = m.width :=
  parse_rows codec fuel doc m h

/-- Witness for C1's amended theorem: a row of the layer parsed from sixDoc
has the declared width two. -/
theorem c1_layer_row_width_witness :
    List.length [1, 2] = sixMap.width :=
  c1_layer_row_width sixCodec 32 sixDoc sixMap rfl
    ⟨"l1", 1, true, [[1, 2], [3, 4], [5, 6]], []⟩ (by decide)
    [1, 2] (by decide)

/-- Counterexample to C1 as stated: sixDoc is accepted by parse and declares
height two, yet its single layer's grid has three rows, because the six
decoded integers fill three rows of the declared width two and the row
count is never compared with the height. -/
theorem c1_counterexample :
    parse sixCodec 32 sixDoc = .ok sixMap ∧
    sixMap.height = 2 ∧
    sixMap.layers = [⟨"l1", 1, true, [[1, 2], [3, 4], [5, 6]], []⟩] ∧
    List.length [[1, 2], [3, 4], [5, 6]] = 3 ∧
    (3 : Nat) ≠ 2 :=
  ⟨rfl, rfl, rfl, rfl, by decide⟩

/-- C2 (amended): provided every tileset's first gid is below 2^31 (the
source compares first gids after a wrapping u32-to-i32 cast, which
misorders larger values), get_tileset_by_gid returns none when no
tileset's first_gid is strictly below the queried gid, any returned
tileset lies in the map, has first_gid strictly below the gid and maximal
among such, and some tileset is returned whenever one lies strictly below
the gid; on the two-tileset example with first gids one and fifty, the
query fifty returns the first tileset and fifty-one returns the second. -/
theorem c2_greatest_below (m : Map) (gid : Nat)
    (h31 : ∀ t ∈ m.tilesets, t.first_gid < 2 ^ 31) :
    ((∀ t ∈ m.tilesets, ¬ t.first_gid < gid) → m.get_tileset_by_gid gid = none) ∧
    (∀ ts, m.get_tileset_by_gid gid = some ts →
        ts ∈ m.tilesets ∧ ts.first_gid < gid ∧
        ∀ t ∈ m.tilesets, t.first_gid < gid → t.first_gid ≤ ts.first_gid) ∧
    ((∃ t ∈ m.tilesets, t.first_gid < gid) →
        ∃ ts, m.get_tileset_by_gid gid = some ts) ∧
    gidMap.get_tileset_by_gid 50 = some gidTs1 ∧
    gidMap.get_tileset_by_gid 51 = some gidTs50 := by
  have hinv := gtbg_fold_inv gid m.tilesets [] (-1, none)
    (by simpa using h31)
    ⟨fun _ => ⟨rfl, by simp⟩, fun ts hts => by simp at hts⟩
  rw [List.nil_append] at hinv
  obtain ⟨hnone, hsome⟩ := hinv
  refine ⟨?_, ?_, ?_, by decide, by decide⟩
  · intro hall
    cases hres : m.get_tileset_by_gid gid with
    | none => rfl
    | some ts =>
        obtain ⟨hm, hlt, _⟩ := hsome ts hres
        exact absurd hlt (hall ts hm)
  · intro ts hres
    obtain ⟨hm, hlt, _, hmax⟩ := hsome ts hres
    exact ⟨hm, hlt, hmax⟩
  · intro ⟨t0, ht0, hlt0⟩
    cases hres : m.get_tileset_by_gid gid with
    | none => exact absurd hlt0 ((hnone hres).2 t0 ht0)
    | some ts => exact ⟨ts, rfl⟩

/-- Witness for C2's amended theorem: on the two-tileset example queried at
fifty-one, the returned tileset is the one with first gid fifty, a member
of the map whose first gid lies below the query. -/
theorem c2_greatest_below_witness :
    gidTs50 ∈ gidMap.tilesets ∧ gidTs50.first_gid < 51 ∧
    gidMap.get_tileset_by_gid 51 = some gidTs50 :=
  ⟨((c2_greatest_below gidMap 51 (by decide)).2.1 gidTs50
      (c2_greatest_below gidMap 51 (by decide)).2.2.2.2).1,
   ((c2_greatest_below gidMap 51 (by decide)).2.1 gidTs50
      (c2_greatest_below gidMap 51 (by decide)).2.2.2.2).2.1,
   (c2_greatest_below gidMap 51 (by decide)).2.2.2.2⟩

/-- Counterexample to C2 as stated: bigMap's only tileset has first gid
2^31, which is strictly below the queried gid 2^31 + 1, so the claim
demands it be returned; the wrapping cast turns 2^31 into a negative i32
and the query returns none instead. -/
theorem c2_counterexample :
    bigMap.tilesets = [bigTs] ∧
    bigTs.first_gid < 2 ^ 31 + 1 ∧
    bigMap.get_tileset_by_gid (2 ^ 31 + 1) = none :=
  ⟨rfl, by decide, by decide⟩

/-- C5 (amended): a parsed Map's orientation is one of the three
enumeration values by construction, and the orientation attribute text is
accepted exactly when it is one of the three recognised strings (note the
capitalised Staggered); any other text makes the required-attribute check
of the map builder fail with MalformedAttributes.  The positivity of
width, height and tile dimensions is not checked: zero is accepted. -/
theorem c5_orientation_strings :
    (∀ (str : String) (o : Orientation),
        orientationFromStr str = some o ↔
          (str = "orthogonal" ∧ o = .Orthogonal) ∨
          (str = "isometric" ∧ o = .Isometric) ∨
          (str = "Staggered" ∧ o = .Staggered)) ∧
    (∀ (codec : Codec) (fuel : Nat) (attrs : List (String × String)) (s : Stream),
        findAttr attrs "orientation" orientationFromStr = none →
        mapNew codec fuel attrs s = .error (.MalformedAttributes
          "map must have a version, width and height with correct types")) := by
  constructor
  · intro str o
    unfold orientationFromStr
    split_ifs with h1 h2 h3
    · subst h1
      cases o <;> decide
    · subst h2
      cases o <;> decide
    · subst h3
      cases o <;> decide
    · simp [h1, h2, h3]
  · intro codec fuel attrs s hnone
    simp only [mapNew]
    rw [hnone]
    cases hv : findAttr attrs "version" (fun t => some t) <;> rfl

/-- Witness for C5's amended theorem: the string orthogonal is recognised,
and a map element whose orientation attribute is the lowercase staggered
(not recognised) fails with MalformedAttributes. -/
theorem c5_orientation_strings_witness :
    orientationFromStr "orthogonal" = some Orientation.Orthogonal ∧
    mapNew sixCodec 7
        [("version", "1.0"), ("orientation", "staggered"), ("width", "2"),
          ("height", "2"), ("tilewidth", "16"), ("tileheight", "16")] [] =
      .error (.MalformedAttributes
        "map must have a version, width and height with correct types") :=
  ⟨(c5_orientation_strings.1 "orthogonal" .Orthogonal).mpr (Or.inl ⟨rfl, rfl⟩),
   c5_orientation_strings.2 sixCodec 7
     [("version", "1.0"), ("orientation", "staggered"), ("width", "2"),
       ("height", "2"), ("tilewidth", "16"), ("tileheight", "16")] [] rfl⟩

/-- Counterexample to C5 as stated: zeroDoc declares width and height zero
yet parse accepts it and returns the map with width and height zero, so
the claimed positivity invariant does not hold on parsed maps. -/
theorem c5_counterexample :
    parse sixCodec 32 zeroDoc = .ok zeroMap ∧
    zeroMap.width = 0 ∧
    zeroMap.height = 0 :=
  ⟨rfl, rfl, rfl⟩

end Tiled
